import Mathlib

/-!
Verification of the alpha-hub conversational backend core.

This file gives a shallow embedding, in Lean 4, of the parts of the
`alpha_hub` Python sources that the specification's testable properties
talk about:

* `src/alpha_hub/storage/db.py` — the SQLite-backed message log
  (`SqliteStore.create_message`, `SqliteStore.list_messages`,
  `SqliteStore.get_message`, and the schema's partial unique index on
  `(conversation_id, client_request_id) WHERE client_request_id IS NOT NULL`);
* `src/alpha_hub/api/http.py` — the `list_messages` HTTP endpoint and its
  `next_before` pagination cursor;
* `src/alpha_hub/core/orchestrator.py` — `Orchestrator.run_turn`;
* `src/alpha_hub/api/ws.py` — the per-connection session state
  (`start_turn`, `handle_cancel`, `finish_turn`).

Modelling conventions:
* timestamps (`utc_now_iso()`, ISO-8601 strings at second precision whose
  lexicographic order agrees with chronological order) are modelled as `Nat`
  and compared numerically;
* SQLite's `ORDER BY created_at_utc` is modelled by a stable sort on the
  insertion-ordered row list (SQLite leaves the relative order of rows with
  equal keys unspecified; the stable sort is one admissible refinement);
* a SQLite constraint violation (`IntegrityError`) is modelled by
  `Except.error StoreError.uniqueViolation`, and a function that can hit one
  returns `Except`;
* an `asyncio.Event` is modelled as a `Bool`-valued function of the number
  of `is_set()` checks performed so far; nothing on the turn path ever calls
  `clear()`, so theorems may assume the function is monotone;
* the streaming LLM provider (`MockLlmProvider.astream` or the remote one)
  is abstracted by the list of text fragments it yields plus an optional
  error it raises when the next fragment after the last is requested;
* the session layer of `ws.py` is modelled as a step machine over the
  connection-local state `(current_task, current_cancel, current_trace_id)`;
  frames other than terminal `done` frames are emitted through the
  orchestrator callbacks and are not part of the machine's output.
-/

namespace AlphaHub

/-- Row of the `messages` table, mirroring `MessageRow` in `db.py`.
`created_at_utc` is a `Nat` model of the ISO-8601 second-precision
timestamp string. -/

structure MessageRow where
  message_id : String
  conversation_id : String
  role : String
  content_text : String
  created_at_utc : Nat
  client_request_id : Option String
  attachments : List String
  deriving Repr, DecidableEq

/-- The message table: rows in insertion order. -/

abbrev Store := List MessageRow

/-- A SQLite integrity error (violated PRIMARY KEY or unique index). -/

inductive StoreError where
  | uniqueViolation
  deriving Repr, DecidableEq

/-- Python truthiness of an `Optional[str]`: `None` and `""` are falsy.
This models the `if client_request_id:` guard in `create_message`. -/

def pyTruthy : Option String → Bool
  | none => false
  | some s => s != ""

/-- Embeds `SqliteStore.get_message` (`db.py`): the row whose `message_id`
matches, if any. -/

def get_message (st : Store) (message_id : String) : Option MessageRow :=
  st.find? fun r => r.message_id == message_id

/-- The idempotency lookup at the top of `create_message` (`db.py` lines
117-127): performed only when `client_request_id` is truthy. -/

def idempotencyLookup (st : Store) (conversation_id : String)
    (client_request_id : Option String) : Option MessageRow :=
  if pyTruthy client_request_id then
    st.find? fun r =>
      r.conversation_id == conversation_id && r.client_request_id == client_request_id
  else none

/-- Embeds `SqliteStore.create_message` (`db.py`).

If the idempotency lookup finds a row for `(conversation_id,
client_request_id)`, that row is returned unchanged and nothing is
inserted.  Otherwise the INSERT runs, subject to the constraints SQLite
enforces: the `message_id` PRIMARY KEY, and the partial unique index on
`(conversation_id, client_request_id) WHERE client_request_id IS NOT NULL`
(which covers the empty string, since `''` is not NULL). -/

def create_message (st : Store) (message_id conversation_id role content_text : String)
    (client_request_id : Option String) (attachments : List String) (now : Nat) :
    Except StoreError (MessageRow × Store) :=
  match idempotencyLookup st conversation_id client_request_id with
  | some row => .ok (row, st)
  | none =>
    if st.any fun r => r.message_id == message_id then
      .error .uniqueViolation
    else if client_request_id.isSome &&
        st.any (fun r =>
          r.conversation_id == conversation_id &&
            r.client_request_id == client_request_id) then
      .error .uniqueViolation
    else
      let row : MessageRow :=
        { message_id := message_id
          conversation_id := conversation_id
          role := role
          content_text := content_text
          created_at_utc := now
          client_request_id := client_request_id
          attachments := attachments }
      .ok (row, st ++ [row])

/-- Chronological order on rows (`ORDER BY created_at_utc ASC`). -/

def createdLE (a b : MessageRow) : Prop :=
  a.created_at_utc ≤ b.created_at_utc

instance : DecidableRel createdLE := fun a b => Nat.decLe a.created_at_utc b.created_at_utc

instance : IsTotal MessageRow createdLE := ⟨fun a b => Nat.le_total a.created_at_utc b.created_at_utc⟩

instance : IsTrans MessageRow createdLE := ⟨fun _ _ _ => Nat.le_trans⟩

/-- Embeds `SqliteStore.list_messages` (`db.py`).

Filter to the conversation (and, when a cursor is supplied, to rows
strictly earlier than it); without `limit` return all matches in ascending
`created_at_utc` order; with `limit`, the SQL takes the newest `limit`
matches (`ORDER BY ... DESC LIMIT ?`) and the Python reverses them, which
is the last `limit` elements of the ascending ordering. -/

def list_messages (st : Store) (conversation_id : String)
    (limit : Option Nat) (before_created_at_utc : Option Nat) : List MessageRow :=
  let filtered := st.filter fun r =>
    r.conversation_id == conversation_id &&
      (match before_created_at_utc with
       | none => true
       | some b => decide (r.created_at_utc < b))
  let sorted := filtered.insertionSort createdLE
  match limit with
  | none => sorted
  | some n => sorted.drop (sorted.length - n)

/-- The row filter of a listing (conversation plus optional cursor),
named so the listing lemmas can speak about it. -/

def rowFilter (conversation_id : String) (before_created_at_utc : Option Nat)
    (r : MessageRow) : Bool :=
  r.conversation_id == conversation_id &&
    (match before_created_at_utc with
     | none => true
     | some b => decide (r.created_at_utc < b))

/-- Response body of `GET /conversations/{id}/messages` (`http.py`):
the page items plus the `next_before` cursor. -/

structure MessageListPage where
  items : List MessageRow
  next_before : Option String
  deriving Repr, DecidableEq

/-- Failure of the endpoint (`ApiError` with code NOT_FOUND). -/

inductive ApiFailure where
  | notFound
  deriving Repr, DecidableEq

/-- Page construction shared by both cursor cases of the endpoint
(`http.py` lines 144-159): fetch the rows and emit
`next_before = items[-1].id` exactly when the page is full. -/

def buildPage (st : Store) (conversation_id : String) (limit : Nat)
    (before_ts : Option Nat) : MessageListPage :=
  let rows := list_messages st conversation_id (some limit) before_ts
  { items := rows
    next_before :=
      if rows.length == limit then rows.getLast?.map (fun r => r.message_id) else none }

/-- Embeds the `list_messages` endpoint (`http.py`): resolve the `before`
message id to its timestamp (404 when absent), list the page, and attach
the cursor. -/

def http_list_messages (st : Store) (conversation_id : String) (limit : Nat)
    (before : Option String) : Except ApiFailure MessageListPage :=
  match before with
  | none => .ok (buildPage st conversation_id limit none)
  | some mid =>
    match get_message st mid with
    | none => .error .notFound
    | some row => .ok (buildPage st conversation_id limit (some row.created_at_utc))

/-- Chat message handed to the LLM provider (`capabilities/interfaces.py`). -/

structure ChatMessage where
  role : String
  content_text : String
  deriving Repr, DecidableEq

/-- One invocation of a session callback: `on_status` or `on_delta`. -/

inductive CbEvent where
  | status (stage : String)
  | delta (text : String)
  deriving Repr, DecidableEq

/-- Usage counters of a turn (`models.py` `Usage`). -/

structure Usage where
  input_tokens : Nat
  output_tokens : Nat
  deriving Repr, DecidableEq

/-- A capability-degradation warning as built by `run_turn`. -/

structure CapabilityWarning where
  name : String
  status : String
  notify : String
  deriving Repr, DecidableEq

/-- The structured error of a failed turn (`{code, message}`). -/

structure ErrorInfo where
  code : String
  message : String
  deriving Repr, DecidableEq

/-- A `message.stored` event as published on the bus by `run_turn`
(topic, payload role and ids). -/

structure StoredEvent where
  event_type : String
  role : String
  message_id : String
  conversation_id : String
  deriving Repr, DecidableEq

/-- Mirrors the `TurnResult` dataclass of `orchestrator.py`. -/

structure TurnResult where
  trace_id : String
  user_message : MessageRow
  assistant_message : Option MessageRow
  reason : String
  usage : Usage
  capability_warnings : List CapabilityWarning
  error : Option ErrorInfo
  deriving Repr, DecidableEq

/-- A `run_turn` call together with its observable effects: the final
store, the callback invocations in order, and the published events. -/

structure TurnOutcome where
  result : TurnResult
  store : Store
  callbacks : List CbEvent
  events : List StoredEvent
  context : List ChatMessage
  deriving Repr, DecidableEq

/-- Count of whitespace-delimited words, modelling Python's
`len(text.split())`: the number of maximal runs of non-whitespace
characters. -/

def wordsAux : Bool → List Char → Nat
  | _, [] => 0
  | inWord, c :: cs =>
    if c.isWhitespace then wordsAux false cs
    else (if inWord then 0 else 1) + wordsAux true cs

def numWords (s : String) : Nat :=
  wordsAux false s.toList

/-- The `TurnResult` built on the cancellation paths of `run_turn`. -/

def cancelledResult (trace_id : String) (user_row : MessageRow) : TurnResult :=
  ⟨trace_id, user_row, none, "cancelled", ⟨0, 0⟩, [], none⟩

/-- The `TurnResult` built on the generation-error path of `run_turn`. -/

def llmErrorResult (trace_id : String) (user_row : MessageRow) (emsg : String) : TurnResult :=
  ⟨trace_id, user_row, none, "error", ⟨0, 0⟩, [⟨"llm", "down", "explicit"⟩],
    some ⟨"UNAVAILABLE", emsg⟩⟩

/-- The streaming loop of `run_turn` (`orchestrator.py` lines 132-136).

`cancel` is indexed by the running count of `is_set()` checks; the first
argument is the index of the next check.  For each available fragment the
loop checks the cancellation signal, breaks if it is set, and otherwise
accumulates the fragment (sending it as a delta).  Returns the index of
the next check, the accumulated fragments, and whether the loop broke. -/

def consumeStream (cancel : Nat → Bool) : Nat → List String → Nat × List String × Bool
  | idx, [] => (idx, [], false)
  | idx, f :: fs =>
    if cancel idx then (idx + 1, [], true)
    else
      let r := consumeStream cancel (idx + 1) fs
      (r.1, f :: r.2.1, r.2.2)

/-- The tail of `run_turn` after the streaming loop (`orchestrator.py`
lines 148-189): the final cancellation check, then persisting the joined
text as the assistant message, publishing its `message.stored` event and
computing usage. -/

def afterStream (store1 : Store) (conversation_id content_text trace_id : String)
    (assistant_message_id : String) (user_row : MessageRow) (cancel : Nat → Bool)
    (idx : Nat) (acc : List String) (cbs : List CbEvent) (events0 : List StoredEvent)
    (ctx : List ChatMessage) (now2 : Nat) : Except StoreError TurnOutcome :=
  if cancel idx then
    .ok { result := cancelledResult trace_id user_row, store := store1,
          callbacks := cbs, events := events0, context := ctx }
  else
    match create_message store1 assistant_message_id conversation_id "assistant"
        (String.join acc) none [] now2 with
    | .error e => .error e
    | .ok (assistant_row, store2) =>
      .ok { result := ⟨trace_id, user_row, some assistant_row, "completed",
              ⟨numWords content_text, numWords (String.join acc)⟩, [], none⟩,
            store := store2, callbacks := cbs,
            events := events0 ++
              [⟨"message.stored", "assistant", assistant_row.message_id,
                conversation_id⟩],
            context := ctx }

/-- Embeds `Orchestrator.run_turn` (`orchestrator.py`).

The LLM stream is abstracted by `llmFrags` (the fragments it yields) and
`llmErr` (`some msg` when requesting the fragment after the last raises).
The generator raises only if the loop actually pulls past the last
fragment, i.e. only when it was not broken out of by cancellation.
The two `create_message` calls use the caller-supplied `user_message_id`
and a fresh `assistant_message_id`, at clock values `now` and `now2`. -/

def run_turn (store : Store) (conversation_id content_text : String)
    (attachments : List String) (cancel : Nat → Bool)
    (llmFrags : List String) (llmErr : Option String)
    (trace_id user_message_id assistant_message_id : String)
    (client_request_id : Option String)
    (context_limit : Nat) (system_prompt : String)
    (now now2 : Nat) : Except StoreError TurnOutcome :=
  match create_message store user_message_id conversation_id "user" content_text
      client_request_id attachments now with
  | .error e => .error e
  | .ok (user_row, store1) =>
    let events0 : List StoredEvent :=
      [⟨"message.stored", "user", user_row.message_id, conversation_id⟩]
    let history := list_messages store1 conversation_id (some (max 1 context_limit)) none
    let ctx : List ChatMessage :=
      ⟨"system", system_prompt⟩ ::
        ((history.filter fun r =>
            r.message_id != user_row.message_id &&
              (r.role == "user" || r.role == "assistant")).map
          fun r => ⟨r.role, r.content_text⟩) ++
        [⟨"user", content_text⟩]
    if cancel 0 then
      .ok { result := cancelledResult trace_id user_row, store := store1,
            callbacks := [.status "queued"], events := events0, context := ctx }
    else
      let s := consumeStream cancel 1 llmFrags
      let cbs : List CbEvent :=
        [.status "queued", .status "thinking", .status "streaming"] ++
          s.2.1.map CbEvent.delta
      match s.2.2, llmErr with
      | false, some emsg =>
        .ok { result := llmErrorResult trace_id user_row emsg, store := store1,
              callbacks := cbs, events := events0, context := ctx }
      | _, _ =>
        afterStream store1 conversation_id content_text trace_id assistant_message_id
          user_row cancel s.1 s.2.1 cbs events0 ctx now2

/-- A terminal `done` frame (`WsAssistantDone` in `models.py`) as sent by
`send_done` in `ws.py`; absent usage and warnings default to zero/empty. -/

structure WsFrameDone where
  trace_id : String
  reason : String
  message_id : Option String
  usage : Usage
  capability_warnings : List CapabilityWarning
  error : Option ErrorInfo
  deriving Repr, DecidableEq

/-- A `done` frame with `reason="error"` and a coded error, as built by
the rejection paths of `ws.py`. -/

def errorFrame (tid code msg : String) : WsFrameDone :=
  ⟨tid, "error", none, ⟨0, 0⟩, [], some ⟨code, msg⟩⟩

/-- The `done` frame `finish_turn` (`ws.py` lines 161-176) builds from a
completed orchestration result. -/

def doneFrameOf (res : TurnResult) : WsFrameDone :=
  ⟨res.trace_id, res.reason, res.assistant_message.map MessageRow.message_id,
    res.usage, res.capability_warnings, res.error⟩

/-- Connection-local session state of `ws_chat` (`ws.py`): whether a turn
task is running (`current_task and not current_task.done()`), the value of
the `current_cancel` event, and `current_trace_id`. -/

structure SessionSt where
  running : Bool
  cancelSet : Bool
  trace_id : Option String
  deriving Repr, DecidableEq

/-- An input the session reacts to: a `user_message` frame (start turn), a
`cancel` frame, or completion of the running orchestration task (which is
when `finish_turn` emits the terminal frame). -/

inductive SessInput where
  | startTurn (trace_id conversation_id : Option String)
  | cancelFrame (trace_id : String)
  | turnDone (result : TurnResult)
  deriving Repr, DecidableEq

/-- One step of the session: mirrors `start_turn`, `handle_cancel` and
`finish_turn` of `ws.py`.  `fresh` stands for the `new_trace_id()` drawn
when no trace id is available.  Returns the next state and the terminal
frames emitted by this step. -/

def sessStep (dflt_conversation_id : Option String) (fresh : String)
    (s : SessionSt) : SessInput → SessionSt × List WsFrameDone
  | .startTurn tid cid =>
    if s.running then
      (s, [errorFrame (s.trace_id.getD fresh) "CONFLICT" "turn already running"])
    else
      match cid.orElse (fun _ => dflt_conversation_id) with
      | none =>
        (s, [errorFrame (tid.getD fresh) "INVALID_ARGUMENT" "conversation_id is required"])
      | some _ =>
        ({ running := true, cancelSet := false, trace_id := some (tid.getD fresh) }, [])
  | .cancelFrame tid =>
    if !s.running then
      (s, [errorFrame tid "NOT_FOUND" "no running turn"])
    else if s.trace_id.isSome && s.trace_id != some tid then
      (s, [errorFrame tid "NOT_FOUND" "trace_id not running"])
    else
      ({ s with cancelSet := true }, [])
  | .turnDone res =>
    if s.running then
      (⟨false, false, none⟩, [doneFrameOf res])
    else
      (s, [])

def runSession (dflt : Option String) (fresh : String) :
    SessionSt → List SessInput → SessionSt × List WsFrameDone
  | s, [] => (s, [])
  | s, i :: is =>
    let r1 := sessStep dflt fresh s i
    let r2 := runSession dflt fresh r1.1 is
    (r2.1, r1.2 ++ r2.2)

/-- Three rows of one conversation at seconds 1, 2, 3 — the concrete
store used to exhibit the pagination-cursor behaviour. -/

def pageRow1 : MessageRow := ⟨"m1", "c1", "user", "a", 1, none, []⟩

def pageRow2 : MessageRow := ⟨"m2", "c1", "assistant", "b", 2, none, []⟩

def pageRow3 : MessageRow := ⟨"m3", "c1", "user", "c", 3, none, []⟩

def pageStore : Store := [pageRow1, pageRow2, pageRow3]

/-- A concrete completed `TurnResult` used by the session witnesses. -/

def demoResult : TurnResult :=
  ⟨"t1", pageRow1, none, "completed", ⟨1, 1⟩, [], none⟩

section StoreLemmas

lemma create_message_inserts_some (st : Store)
    (mid conv role content s : String) (atts : List String) (now : Nat)
    (hmid : ∀ r ∈ st, r.message_id ≠ mid)
    (hpair : ∀ r ∈ st, ¬(r.conversation_id = conv ∧ r.client_request_id = some s)) :
    create_message st mid conv role content (some s) atts now =
      .ok (⟨mid, conv, role, content, now, some s, atts⟩,
        st ++ [⟨mid, conv, role, content, now, some s, atts⟩]) := by
  have hfind : (st.find? fun r =>
      r.conversation_id == conv && r.client_request_id == some s) = none := by
    rw [List.find?_eq_none]
    intro x hx
    simp only [Bool.and_eq_true, beq_iff_eq, not_and]
    intro h1 h2
    exact hpair x hx ⟨h1, h2⟩
  have hany1 : (st.any fun r => r.message_id == mid) = false := by
    rw [List.any_eq_false]
    intro x hx
    simp only [beq_iff_eq]
    exact hmid x hx
  have hany2 : (st.any fun r =>
      r.conversation_id == conv && r.client_request_id == some s) = false := by
    rw [List.any_eq_false]
    intro x hx
    simp only [Bool.and_eq_true, beq_iff_eq, not_and]
    intro h1 h2
    exact hpair x hx ⟨h1, h2⟩
  have hlook : idempotencyLookup st conv (some s) = none := by
    unfold idempotencyLookup
    cases hps : pyTruthy (some s)
    · rw [if_neg (by simp [hps])]
    · rw [if_pos rfl, hfind]
  unfold create_message
  simp only [hlook, hany1, hany2, Bool.false_eq_true, if_false,
    Bool.and_false, Option.isSome_some, Bool.true_and]

lemma create_message_inserts_none (st : Store)
    (mid conv role content : String) (atts : List String) (now : Nat)
    (hmid : ∀ r ∈ st, r.message_id ≠ mid) :
    create_message st mid conv role content none atts now =
      .ok (⟨mid, conv, role, content, now, none, atts⟩,
        st ++ [⟨mid, conv, role, content, now, none, atts⟩]) := by
  have hany1 : (st.any fun r => r.message_id == mid) = false := by
    rw [List.any_eq_false]
    intro x hx
    simp only [beq_iff_eq]
    exact hmid x hx
  unfold create_message
  simp only [idempotencyLookup, pyTruthy, hany1, Option.isSome_none, Bool.false_and,
    Bool.false_eq_true, if_false]

lemma create_message_returns_existing (st : Store)
    (mid conv role content s : String) (atts : List String) (now : Nat)
    (row : MessageRow)
    (hs : s ≠ "")
    (hfind : (st.find? fun r =>
      r.conversation_id == conv && r.client_request_id == some s) = some row) :
    create_message st mid conv role content (some s) atts now = .ok (row, st) := by
  have hps : pyTruthy (some s) = true := by
    simp only [pyTruthy, bne_iff_ne, ne_eq]
    exact hs
  unfold create_message
  simp only [idempotencyLookup, hps, if_true, hfind]

lemma create_message_ok_store (st : Store)
    (mid conv role content : String) (crid : Option String) (atts : List String)
    (now : Nat) (row : MessageRow) (st2 : Store)
    (h : create_message st mid conv role content crid atts now = .ok (row, st2)) :
    st2 = st ∨ st2 = st ++ [row] := by
  unfold create_message at h
  split at h
  · injection h with h2
    injection h2 with _ h4
    exact Or.inl h4.symm
  · split at h
    · cases h
    · split at h
      · cases h
      · injection h with h2
        injection h2 with h3 h4
        subst h3
        exact Or.inr h4.symm

lemma create_message_ok_none (st : Store)
    (mid conv role content : String) (atts : List String)
    (now : Nat) (row : MessageRow) (st2 : Store)
    (h : create_message st mid conv role content none atts now = .ok (row, st2)) :
    row = ⟨mid, conv, role, content, now, none, atts⟩ ∧ st2 = st ++ [row] := by
  unfold create_message at h
  simp only [idempotencyLookup, pyTruthy, Option.isSome_none, Bool.false_and,
    Bool.false_eq_true, if_false] at h
  split at h
  · cases h
  · injection h with h2
    injection h2 with h3 h4
    subst h3
    exact ⟨rfl, h4.symm⟩

lemma list_messages_eq (st : Store) (conv : String) (lim : Option Nat) (bt : Option Nat) :
    list_messages st conv lim bt =
      match lim with
      | none => (st.filter (rowFilter conv bt)).insertionSort createdLE
      | some n =>
        let sorted := (st.filter (rowFilter conv bt)).insertionSort createdLE
        sorted.drop (sorted.length - n) := by
  unfold list_messages rowFilter
  rfl

lemma list_messages_pairwise (st : Store) (conv : String) (lim : Option Nat)
    (bt : Option Nat) :
    (list_messages st conv lim bt).Pairwise createdLE := by
  rw [list_messages_eq]
  have hs : ((st.filter (rowFilter conv bt)).insertionSort createdLE).Pairwise createdLE :=
    List.sorted_insertionSort createdLE (st.filter (rowFilter conv bt))
  cases lim with
  | none => exact hs
  | some n => exact List.Pairwise.drop hs

lemma list_messages_mem (st : Store) (conv : String) (lim : Option Nat)
    (bt : Option Nat) (x : MessageRow) (hx : x ∈ list_messages st conv lim bt) :
    x ∈ st.filter (rowFilter conv bt) := by
  rw [list_messages_eq] at hx
  cases lim with
  | none => exact (List.mem_insertionSort createdLE).mp hx
  | some n => exact (List.mem_insertionSort createdLE).mp (List.mem_of_mem_drop hx)

lemma list_messages_mem_before (st : Store) (conv : String) (lim : Option Nat)
    (b : Nat) (x : MessageRow) (hx : x ∈ list_messages st conv lim (some b)) :
    x.created_at_utc < b := by
  have h := List.mem_filter.mp (list_messages_mem st conv lim (some b) x hx)
  have h2 := h.2
  simp only [rowFilter, Bool.and_eq_true, decide_eq_true_eq] at h2
  exact h2.2

lemma list_messages_head_min (st : Store) (conv : String) (lim : Option Nat)
    (bt : Option Nat) (p0 : MessageRow) (rest : List MessageRow)
    (hP : list_messages st conv lim bt = p0 :: rest) :
    ∀ y ∈ p0 :: rest, p0.created_at_utc ≤ y.created_at_utc := by
  have hpw : (p0 :: rest).Pairwise createdLE := by
    rw [← hP]; exact list_messages_pairwise st conv lim bt
  intro y hy
  rcases List.mem_cons.mp hy with h | h
  · subst h; exact Nat.le_refl _
  · exact List.rel_of_pairwise_cons hpw h

end StoreLemmas

section StreamLemmas

lemma consumeStream_no_cancel (cancel : Nat → Bool) :
    ∀ (fs : List String) (i : Nat),
    (∀ j, i ≤ j → j < i + fs.length → cancel j = false) →
    consumeStream cancel i fs = (i + fs.length, fs, false)
  | [], i, _ => by simp [consumeStream]
  | f :: fs, i, h => by
    have hci : cancel i = false := h i (Nat.le_refl i) (by simp [List.length_cons])
    have ih := consumeStream_no_cancel cancel fs (i + 1)
      (fun j hj1 hj2 => h j (by omega) (by simp only [List.length_cons]; omega))
    have harith : i + 1 + fs.length = i + (fs.length + 1) := by omega
    simp only [consumeStream, hci, Bool.false_eq_true, if_false, ih, List.length_cons,
      harith]

lemma consumeStream_broke (cancel : Nat → Bool) :
    ∀ (fs : List String) (i k : Nat), i ≤ k → k < i + fs.length → cancel k = true →
    (consumeStream cancel i fs).2.2 = true
  | [], i, k, hik, hk, _ => by simp only [List.length_nil, Nat.add_zero] at hk; omega
  | f :: fs, i, k, hik, hk, hck => by
    cases hci : cancel i with
    | true => simp [consumeStream, hci]
    | false =>
      have hik1 : i + 1 ≤ k := by
        rcases Nat.eq_or_lt_of_le hik with h | h
        · subst h; rw [hci] at hck; cases hck
        · omega
      have ih := consumeStream_broke cancel fs (i + 1) k hik1
        (by simp only [List.length_cons] at hk; omega) hck
      simp [consumeStream, hci, ih]

lemma consumeStream_broke_next (cancel : Nat → Bool)
    (mono : ∀ i j, i ≤ j → cancel i = true → cancel j = true) :
    ∀ (fs : List String) (i : Nat),
    (consumeStream cancel i fs).2.2 = true →
    cancel (consumeStream cancel i fs).1 = true
  | [], i, hb => by simp [consumeStream] at hb
  | f :: fs, i, hb => by
    cases hci : cancel i with
    | true =>
      simp only [consumeStream, hci, if_true]
      exact mono i (i + 1) (Nat.le_succ i) hci
    | false =>
      simp only [consumeStream, hci, Bool.false_eq_true, if_false] at hb ⊢
      exact consumeStream_broke_next cancel mono fs (i + 1) hb

lemma consumeStream_not_broke (cancel : Nat → Bool) :
    ∀ (fs : List String) (i : Nat),
    (consumeStream cancel i fs).2.2 = false →
    consumeStream cancel i fs = (i + fs.length, fs, false)
  | [], i, _ => by simp [consumeStream]
  | f :: fs, i, hb => by
    cases hci : cancel i with
    | true => simp [consumeStream, hci] at hb
    | false =>
      simp only [consumeStream, hci, Bool.false_eq_true, if_false] at hb ⊢
      have ih := consumeStream_not_broke cancel fs (i + 1) hb
      have harith : i + 1 + fs.length = i + (fs.length + 1) := by omega
      simp only [ih, List.length_cons, harith]

lemma afterStream_cancel {store1 : Store}
    {conversation_id content_text trace_id assistant_message_id : String}
    {user_row : MessageRow} {cancel : Nat → Bool} {idx : Nat} {acc : List String}
    {cbs : List CbEvent} {events0 : List StoredEvent} {ctx : List ChatMessage}
    {now2 : Nat} (h : cancel idx = true) :
    afterStream store1 conversation_id content_text trace_id assistant_message_id
      user_row cancel idx acc cbs events0 ctx now2 =
      .ok { result := cancelledResult trace_id user_row, store := store1,
            callbacks := cbs, events := events0, context := ctx } := by
  unfold afterStream
  rw [if_pos h]

lemma afterStream_ok_callbacks {store1 : Store}
    {conversation_id content_text trace_id assistant_message_id : String}
    {user_row : MessageRow} {cancel : Nat → Bool} {idx : Nat} {acc : List String}
    {cbs : List CbEvent} {events0 : List StoredEvent} {ctx : List ChatMessage}
    {now2 : Nat} {out : TurnOutcome}
    (h : afterStream store1 conversation_id content_text trace_id assistant_message_id
      user_row cancel idx acc cbs events0 ctx now2 = .ok out) :
    out.callbacks = cbs := by
  unfold afterStream at h
  by_cases hc : cancel idx = true
  · rw [if_pos hc] at h
    injection h with h2
    subst h2
    rfl
  · rw [if_neg hc] at h
    cases hcr : create_message store1 assistant_message_id conversation_id "assistant"
        (String.join acc) none [] now2 with
    | error e => rw [hcr] at h; cases h
    | ok q =>
      obtain ⟨arow, st2⟩ := q
      rw [hcr] at h
      dsimp only at h
      injection h with h2
      subst h2
      rfl

end StreamLemmas

/-- C1 (counterexample): the claim quantifies over every non-null
`client_request_id`, but for the non-null empty string the truthiness
guard skips the idempotency lookup while the partial unique index still
covers it, so the second call raises a uniqueness error instead of
returning the first row. -/
theorem create_message_empty_string_key_counterexample :
    create_message [] "m1" "c" "user" "A" (some "") [] 0 =
      .ok (⟨"m1", "c", "user", "A", 0, some "", []⟩,
        [⟨"m1", "c", "user", "A", 0, some "", []⟩]) ∧
    create_message [⟨"m1", "c", "user", "A", 0, some "", []⟩] "m2" "c" "user" "B"
      (some "") [] 1 = .error .uniqueViolation ∧
    (some "" : Option String) ≠ none :=
  ⟨by rfl, by rfl, by decide⟩

/-- C1 (amended: "non-null" strengthened to "non-empty"): for a non-empty
`client_request_id`, calling `create_message` twice with the same
`(conversation_id, client_request_id)` and different content returns the
row created by the first call both times, unchanged, and a third call with
a different `client_request_id` creates a distinct message. -/

theorem create_message_idempotent_nonempty_key (st : Store)
    (conv crid crid2 mid1 mid2 mid3 role1 role2 role3 c1 c2 c3 : String)
    (a1 a2 a3 : List String) (t1 t2 t3 : Nat)
    (hcrid : crid ≠ "") (hne : crid2 ≠ crid)
    (hmid1 : ∀ r ∈ st, r.message_id ≠ mid1)
    (hpair1 : ∀ r ∈ st, ¬(r.conversation_id = conv ∧ r.client_request_id = some crid))
    (hpair2 : ∀ r ∈ st, ¬(r.conversation_id = conv ∧ r.client_request_id = some crid2))
    (hmid3 : ∀ r ∈ st, r.message_id ≠ mid3) (hmid31 : mid3 ≠ mid1) :
    ∃ row1 row3,
      create_message st mid1 conv role1 c1 (some crid) a1 t1 = .ok (row1, st ++ [row1]) ∧
      row1.message_id = mid1 ∧ row1.content_text = c1 ∧
      create_message (st ++ [row1]) mid2 conv role2 c2 (some crid) a2 t2 =
        .ok (row1, st ++ [row1]) ∧
      create_message (st ++ [row1]) mid3 conv role3 c3 (some crid2) a3 t3 =
        .ok (row3, st ++ [row1] ++ [row3]) ∧
      row3.message_id = mid3 ∧ row3.message_id ≠ row1.message_id := by
  refine ⟨⟨mid1, conv, role1, c1, t1, some crid, a1⟩,
    ⟨mid3, conv, role3, c3, t3, some crid2, a3⟩,
    create_message_inserts_some st mid1 conv role1 c1 crid a1 t1 hmid1 hpair1,
    rfl, rfl, ?_, ?_, rfl, hmid31⟩
  · apply create_message_returns_existing _ _ _ _ _ _ _ _ _ hcrid
    rw [List.find?_append]
    have h1 : (st.find? fun r =>
        r.conversation_id == conv && r.client_request_id == some crid) = none := by
      rw [List.find?_eq_none]
      intro x hx
      simp only [Bool.and_eq_true, beq_iff_eq, not_and]
      intro h1 h2
      exact hpair1 x hx ⟨h1, h2⟩
    rw [h1, Option.none_or]
    simp [List.find?]
  · apply create_message_inserts_some
    · intro r hr
      rcases List.mem_append.mp hr with h | h
      · exact hmid3 r h
      · simp only [List.mem_singleton] at h
        subst h
        exact hmid31.symm
    · intro r hr
      rcases List.mem_append.mp hr with h | h
      · exact hpair2 r h
      · simp only [List.mem_singleton] at h
        subst h
        simp only [not_and]
        intro _ hc
        exact hne (Option.some.inj hc).symm

/-- C1 witness: the amended idempotency theorem at a concrete store. -/

theorem create_message_idempotent_nonempty_key_witness :
    ∃ row1 row3,
      create_message [] "m1" "c" "user" "A" (some "k") [] 1 = .ok (row1, [] ++ [row1]) ∧
      row1.message_id = "m1" ∧ row1.content_text = "A" ∧
      create_message ([] ++ [row1]) "m2" "c" "user" "B" (some "k") [] 2 =
        .ok (row1, [] ++ [row1]) ∧
      create_message ([] ++ [row1]) "m3" "c" "user" "C" (some "k2") [] 3 =
        .ok (row3, [] ++ [row1] ++ [row3]) ∧
      row3.message_id = "m3" ∧ row3.message_id ≠ row1.message_id :=
  create_message_idempotent_nonempty_key [] "c" "k" "k2" "m1" "m2" "m3" "user" "user" "user" "A" "B" "C" [] [] []
    1 2 3 (by decide) (by decide) (by simp) (by simp) (by simp) (by simp) (by decide)

/-- C2 (code bug): on a conversation with rows at seconds 1 < 2 < 3 and
`limit = 2`, the endpoint returns the page `[row2, row3]` with
`next_before` equal to the id of `row3` — the newest item of the page, not
the oldest — and following that cursor returns `[row1, row2]`, so `row2`
is returned again even though it was already seen. -/

theorem next_before_cursor_newest_item_bug :
    http_list_messages pageStore "c1" 2 none =
      .ok ⟨[pageRow2, pageRow3], some pageRow3.message_id⟩ ∧
    pageRow2.created_at_utc = 2 ∧ pageRow3.created_at_utc = 3 ∧
    pageRow3.message_id ≠ pageRow2.message_id ∧
    http_list_messages pageStore "c1" 2 (some pageRow3.message_id) =
      .ok ⟨[pageRow1, pageRow2], some pageRow2.message_id⟩ ∧
    pageRow2 ∈ [pageRow2, pageRow3] ∧ pageRow2 ∈ [pageRow1, pageRow2] :=
  ⟨by rfl, by rfl, by rfl, by decide, by rfl, by simp, by simp⟩

/-- C3: whenever the cancellation signal (monotone, as an `asyncio.Event`
that is never cleared) is set at one of the checks `run_turn` performs —
the pre-generation check, a check during streaming, or the post-stream
check provided generation did not raise first — the result has
`reason = "cancelled"`, no assistant message, zero usage, the store holds
nothing beyond the user message, and only the user `message.stored` event
was published (partial streamed text is discarded). -/

theorem run_turn_cancelled_discards_partial (store : Store) (conversation_id content_text : String)
    (attachments : List String) (cancel : Nat → Bool)
    (llmFrags : List String) (llmErr : Option String)
    (trace_id user_message_id assistant_message_id : String)
    (client_request_id : Option String) (context_limit : Nat) (system_prompt : String)
    (now now2 : Nat) (out : TurnOutcome)
    (mono : ∀ i j, i ≤ j → cancel i = true → cancel j = true)
    (hc : (∃ k, k ≤ llmFrags.length ∧ cancel k = true) ∨
      (llmErr = none ∧ cancel (llmFrags.length + 1) = true))
    (hrun : run_turn store conversation_id content_text attachments cancel llmFrags llmErr
      trace_id user_message_id assistant_message_id client_request_id context_limit
      system_prompt now now2 = .ok out) :
    out.result.reason = "cancelled" ∧
    out.result.assistant_message = none ∧
    out.result.usage = ⟨0, 0⟩ ∧
    (out.store = store ∨ out.store = store ++ [out.result.user_message]) ∧
    out.events =
      [⟨"message.stored", "user", out.result.user_message.message_id, conversation_id⟩] := by
  unfold run_turn at hrun
  cases hcreate : create_message store user_message_id conversation_id "user" content_text
      client_request_id attachments now with
  | error e => rw [hcreate] at hrun; cases hrun
  | ok p =>
    obtain ⟨user_row, store1⟩ := p
    have hst := create_message_ok_store store user_message_id conversation_id "user"
      content_text client_request_id attachments now user_row store1 hcreate
    rw [hcreate] at hrun
    dsimp only at hrun
    by_cases hc0 : cancel 0 = true
    · rw [if_pos hc0] at hrun
      injection hrun with h
      subst h
      exact ⟨rfl, rfl, rfl, hst, rfl⟩
    · rw [if_neg hc0] at hrun
      have hc0f : cancel 0 = false := Bool.eq_false_iff.mpr hc0
      have hcancelled :
          (∃ k, 1 ≤ k ∧ k ≤ llmFrags.length ∧ cancel k = true) ∨
          (llmErr = none ∧ cancel (llmFrags.length + 1) = true) := by
        rcases hc with ⟨k, hk, hck⟩ | h
        · rcases Nat.eq_zero_or_pos k with h0 | h0
          · subst h0; rw [hc0f] at hck; cases hck
          · exact Or.inl ⟨k, h0, hk, hck⟩
        · exact Or.inr h
      split at hrun
      · -- generation error arm: the loop was not broken out of and llmErr is some
        rename_i emsg hbfalse
        rcases hcancelled with ⟨k, hk1, hkn, hck⟩ | ⟨herrnone, _⟩
        · have hbt : (consumeStream cancel 1 llmFrags).2.2 = true :=
            consumeStream_broke cancel llmFrags 1 k hk1 (by omega) hck
          rw [hbt] at hbfalse
          cases hbfalse
        · cases herrnone
      · -- continue arm
        by_cases hb : (consumeStream cancel 1 llmFrags).2.2 = true
        · have hcidx : cancel (consumeStream cancel 1 llmFrags).1 = true :=
            consumeStream_broke_next cancel mono llmFrags 1 hb
          rw [afterStream_cancel hcidx] at hrun
          injection hrun with h
          subst h
          exact ⟨rfl, rfl, rfl, hst, rfl⟩
        · have hbf : (consumeStream cancel 1 llmFrags).2.2 = false :=
            Bool.eq_false_iff.mpr hb
          have hcs := consumeStream_not_broke cancel llmFrags 1 hbf
          rcases hcancelled with ⟨k, hk1, hkn, hck⟩ | ⟨_, hcn1⟩
          · have : (consumeStream cancel 1 llmFrags).2.2 = true :=
              consumeStream_broke cancel llmFrags 1 k hk1 (by omega) hck
            rw [hbf] at this
            cases this
          · have hcidx : cancel (consumeStream cancel 1 llmFrags).1 = true := by
              rw [hcs]
              show cancel (1 + llmFrags.length) = true
              rw [Nat.add_comm]
              exact hcn1
            rw [afterStream_cancel hcidx] at hrun
            injection hrun with h
            subst h
            exact ⟨rfl, rfl, rfl, hst, rfl⟩

/-- C3 witness: a turn whose signal is set from the start is cancelled. -/

theorem run_turn_cancelled_discards_partial_witness :
    ∃ out, run_turn [] "c1" "hi" [] (fun _ => true) ["a"] none "t" "u1" "a1" none
        30 "sys" 0 1 = .ok out ∧
      (out.result.reason = "cancelled" ∧ out.result.assistant_message = none ∧
        out.result.usage = ⟨0, 0⟩ ∧
        (out.store = [] ∨ out.store = [] ++ [out.result.user_message]) ∧
        out.events =
          [⟨"message.stored", "user", out.result.user_message.message_id, "c1"⟩]) := by
  have hok : (run_turn [] "c1" "hi" [] (fun _ => true) ["a"] none "t" "u1" "a1" none
      30 "sys" 0 1).isOk = true := by rfl
  cases h : run_turn [] "c1" "hi" [] (fun _ => true) ["a"] none "t" "u1" "a1" none
      30 "sys" 0 1 with
  | error e => rw [h] at hok; cases hok
  | ok out =>
    exact ⟨out, rfl, run_turn_cancelled_discards_partial [] "c1" "hi" [] (fun _ => true) ["a"] none "t" "u1" "a1"
      none 30 "sys" 0 1 out (fun i j _ _ => rfl) (Or.inl ⟨0, by simp, rfl⟩) h⟩

/-- C4: when the generation capability raises after yielding zero or more
fragments (and cancellation never intervened), the result has
`reason = "error"` with error `{code := UNAVAILABLE}`, an `llm`-down
capability warning, no assistant message, zero usage, only the user
`message.stored` event — and the already-delivered fragments remain in the
callback log (they are not retracted). -/

theorem run_turn_generation_error_unavailable (store : Store) (conversation_id content_text : String)
    (attachments : List String) (cancel : Nat → Bool)
    (llmFrags : List String) (llmErr : Option String) (emsg : String)
    (trace_id user_message_id assistant_message_id : String)
    (client_request_id : Option String) (context_limit : Nat) (system_prompt : String)
    (now now2 : Nat) (out : TurnOutcome)
    (hnc : ∀ j, j ≤ llmFrags.length → cancel j = false)
    (herr : llmErr = some emsg)
    (hrun : run_turn store conversation_id content_text attachments cancel llmFrags llmErr
      trace_id user_message_id assistant_message_id client_request_id context_limit
      system_prompt now now2 = .ok out) :
    out.result.reason = "error" ∧
    out.result.error = some ⟨"UNAVAILABLE", emsg⟩ ∧
    out.result.capability_warnings = [⟨"llm", "down", "explicit"⟩] ∧
    out.result.assistant_message = none ∧
    out.result.usage = ⟨0, 0⟩ ∧
    (out.store = store ∨ out.store = store ++ [out.result.user_message]) ∧
    out.events =
      [⟨"message.stored", "user", out.result.user_message.message_id, conversation_id⟩] ∧
    out.callbacks =
      [CbEvent.status "queued", CbEvent.status "thinking", CbEvent.status "streaming"] ++
        llmFrags.map CbEvent.delta := by
  subst herr
  unfold run_turn at hrun
  cases hcreate : create_message store user_message_id conversation_id "user" content_text
      client_request_id attachments now with
  | error e => rw [hcreate] at hrun; cases hrun
  | ok p =>
    obtain ⟨user_row, store1⟩ := p
    have hst := create_message_ok_store store user_message_id conversation_id "user"
      content_text client_request_id attachments now user_row store1 hcreate
    rw [hcreate] at hrun
    dsimp only at hrun
    have hc0 : cancel 0 = false := hnc 0 (Nat.zero_le _)
    rw [hc0] at hrun
    simp only [Bool.false_eq_true, if_false] at hrun
    have hcs : consumeStream cancel 1 llmFrags = (1 + llmFrags.length, llmFrags, false) :=
      consumeStream_no_cancel cancel llmFrags 1 (fun j hj1 hj2 => hnc j (by omega))
    rw [hcs] at hrun
    dsimp only at hrun
    injection hrun with h
    subst h
    exact ⟨rfl, rfl, rfl, rfl, rfl, hst, rfl, rfl⟩

/-- C4 witness: a provider that raises after fragments "a", "b". -/

theorem run_turn_generation_error_unavailable_witness :
    ∃ out, run_turn [] "c1" "hi" [] (fun _ => false) ["a", "b"] (some "boom") "t" "u1"
        "a1" none 30 "sys" 0 1 = .ok out ∧
      (out.result.reason = "error" ∧
        out.result.error = some ⟨"UNAVAILABLE", "boom"⟩ ∧
        out.result.capability_warnings = [⟨"llm", "down", "explicit"⟩] ∧
        out.result.assistant_message = none ∧
        out.result.usage = ⟨0, 0⟩ ∧
        (out.store = [] ∨ out.store = [] ++ [out.result.user_message]) ∧
        out.events =
          [⟨"message.stored", "user", out.result.user_message.message_id, "c1"⟩] ∧
        out.callbacks =
          [CbEvent.status "queued", CbEvent.status "thinking", CbEvent.status "streaming"]
            ++ ["a", "b"].map CbEvent.delta) := by
  have hok : (run_turn [] "c1" "hi" [] (fun _ => false) ["a", "b"] (some "boom") "t"
      "u1" "a1" none 30 "sys" 0 1).isOk = true := by rfl
  cases h : run_turn [] "c1" "hi" [] (fun _ => false) ["a", "b"] (some "boom") "t" "u1"
      "a1" none 30 "sys" 0 1 with
  | error e => rw [h] at hok; cases hok
  | ok out =>
    exact ⟨out, rfl, run_turn_generation_error_unavailable [] "c1" "hi" [] (fun _ => false) ["a", "b"] (some "boom")
      "boom" "t" "u1" "a1" none 30 "sys" 0 1 out (fun j _ => rfl) rfl h⟩

/-- C5: a `start_turn` input while the session is running leaves the state
(including the cancellation flag) unchanged and emits exactly one
`CONFLICT`-coded error frame, and the running turn's completion still
produces its single `done` frame: the two-input trace emits exactly the
conflict frame followed by the turn's `done` frame. -/

theorem session_conflict_second_start_turn (d : Option String) (fresh : String) (s : SessionSt) (t : String)
    (tid cid : Option String) (res : TurnResult)
    (hrun : s.running = true) (htr : s.trace_id = some t) (hres : res.trace_id = t) :
    sessStep d fresh s (.startTurn tid cid) =
      (s, [errorFrame t "CONFLICT" "turn already running"]) ∧
    runSession d fresh s [.startTurn tid cid, .turnDone res] =
      (⟨false, false, none⟩,
        [errorFrame t "CONFLICT" "turn already running", doneFrameOf res]) ∧
    (doneFrameOf res).trace_id = t := by
  have h1 : sessStep d fresh s (.startTurn tid cid) =
      (s, [errorFrame t "CONFLICT" "turn already running"]) := by
    simp [sessStep, hrun, htr]
  have h2 : sessStep d fresh s (.turnDone res) =
      (⟨false, false, none⟩, [doneFrameOf res]) := by
    simp [sessStep, hrun]
  refine ⟨h1, ?_, hres⟩
  simp only [runSession, h1, h2]
  rfl

/-- C5 witness: a running session receiving a second start and the
completion of the first turn. -/

theorem session_conflict_second_start_turn_witness :
    sessStep none "f" ⟨true, false, some "t1"⟩ (.startTurn none none) =
      (⟨true, false, some "t1"⟩, [errorFrame "t1" "CONFLICT" "turn already running"]) ∧
    runSession none "f" ⟨true, false, some "t1"⟩
      [.startTurn none none, .turnDone demoResult] =
      (⟨false, false, none⟩,
        [errorFrame "t1" "CONFLICT" "turn already running", doneFrameOf demoResult]) ∧
    (doneFrameOf demoResult).trace_id = "t1" :=
  session_conflict_second_start_turn none "f" ⟨true, false, some "t1"⟩ "t1" none none demoResult rfl rfl rfl

/-- C6: a turn that streams to completion without error or cancellation
persists the accumulated text as a new assistant message with no
`client_request_id`, appended to the store; publishes `message.stored`
events for user then assistant; computes usage as the whitespace-delimited
word counts of the input and output text; and yields
`reason = "completed"`. -/

theorem run_turn_completed_persists_assistant (store : Store) (conversation_id content_text : String)
    (attachments : List String) (cancel : Nat → Bool)
    (llmFrags : List String) (llmErr : Option String)
    (trace_id user_message_id assistant_message_id : String)
    (client_request_id : Option String) (context_limit : Nat) (system_prompt : String)
    (now now2 : Nat) (out : TurnOutcome)
    (hnc : ∀ j, cancel j = false)
    (herr : llmErr = none)
    (hrun : run_turn store conversation_id content_text attachments cancel llmFrags llmErr
      trace_id user_message_id assistant_message_id client_request_id context_limit
      system_prompt now now2 = .ok out) :
    out.result.reason = "completed" ∧
    ∃ arow,
      out.result.assistant_message = some arow ∧
      arow.role = "assistant" ∧
      arow.client_request_id = none ∧
      arow.content_text = String.join llmFrags ∧
      arow.message_id = assistant_message_id ∧
      out.store.getLast? = some arow ∧
      out.events.map StoredEvent.role = ["user", "assistant"] ∧
      out.events.map StoredEvent.event_type = ["message.stored", "message.stored"] ∧
      out.result.usage = ⟨numWords content_text, numWords (String.join llmFrags)⟩ := by
  subst herr
  unfold run_turn at hrun
  cases hcreate : create_message store user_message_id conversation_id "user" content_text
      client_request_id attachments now with
  | error e => rw [hcreate] at hrun; cases hrun
  | ok p =>
    obtain ⟨user_row, store1⟩ := p
    rw [hcreate] at hrun
    dsimp only at hrun
    rw [hnc 0] at hrun
    simp only [Bool.false_eq_true, if_false] at hrun
    have hcs : consumeStream cancel 1 llmFrags = (1 + llmFrags.length, llmFrags, false) :=
      consumeStream_no_cancel cancel llmFrags 1 (fun j hj1 hj2 => hnc j)
    rw [hcs] at hrun
    dsimp only at hrun
    unfold afterStream at hrun
    rw [hnc (1 + llmFrags.length)] at hrun
    simp only [Bool.false_eq_true, if_false] at hrun
    cases hcreate2 : create_message store1 assistant_message_id conversation_id "assistant"
        (String.join llmFrags) none [] now2 with
    | error e => rw [hcreate2] at hrun; cases hrun
    | ok q =>
      obtain ⟨arow, store2⟩ := q
      have hshape := create_message_ok_none store1 assistant_message_id conversation_id
        "assistant" (String.join llmFrags) [] now2 arow store2 hcreate2
      rw [hcreate2] at hrun
      dsimp only at hrun
      injection hrun with h
      subst h
      refine ⟨rfl, arow, rfl, ?_, ?_, ?_, ?_, ?_, rfl, rfl, rfl⟩
      · rw [hshape.1]
      · rw [hshape.1]
      · rw [hshape.1]
      · rw [hshape.1]
      · show store2.getLast? = some arow
        rw [hshape.2]
        exact List.getLast?_concat _

/-- C6 witness: `content_text = "hello"` and fragments `["Hi ", "there"]`
give a completed turn with `usage.input_tokens = numWords "hello" = 1`. -/

theorem run_turn_completed_persists_assistant_witness :
    ∃ out, run_turn [] "c1" "hello" [] (fun _ => false) ["Hi ", "there"] none "t" "u1"
        "a1" none 30 "sys" 0 1 = .ok out ∧
      (out.result.reason = "completed" ∧
        ∃ arow,
          out.result.assistant_message = some arow ∧
          arow.role = "assistant" ∧
          arow.client_request_id = none ∧
          arow.content_text = String.join ["Hi ", "there"] ∧
          arow.message_id = "a1" ∧
          out.store.getLast? = some arow ∧
          out.events.map StoredEvent.role = ["user", "assistant"] ∧
          out.events.map StoredEvent.event_type = ["message.stored", "message.stored"] ∧
          out.result.usage = ⟨numWords "hello", numWords (String.join ["Hi ", "there"])⟩) ∧
      numWords "hello" = 1 := by
  have hok : (run_turn [] "c1" "hello" [] (fun _ => false) ["Hi ", "there"] none "t"
      "u1" "a1" none 30 "sys" 0 1).isOk = true := by rfl
  cases h : run_turn [] "c1" "hello" [] (fun _ => false) ["Hi ", "there"] none "t" "u1"
      "a1" none 30 "sys" 0 1 with
  | error e => rw [h] at hok; cases hok
  | ok out =>
    have hmain := run_turn_completed_persists_assistant [] "c1" "hello" [] (fun _ => false) ["Hi ", "there"] none "t"
      "u1" "a1" none 30 "sys" 0 1 out (fun j => rfl) rfl h
    exact ⟨out, rfl, hmain, rfl⟩

/-- C7: a `cancel` frame is accepted — setting the shared cancellation
flag and emitting no frame until the orchestration returns — exactly when
a turn is running and the trace id matches; with no running turn, or a
mismatched trace id, it is rejected with a `NOT_FOUND` error frame and the
state is untouched.  The accepted cancel's terminal frame is emitted when
the turn completes. -/

theorem session_cancel_requires_matching_trace (d : Option String) (fresh : String) (s : SessionSt) (t tid : String)
    (res : TurnResult) :
    (s.running = true → s.trace_id = some t →
      sessStep d fresh s (.cancelFrame t) = ({ s with cancelSet := true }, [])) ∧
    (s.running = false →
      sessStep d fresh s (.cancelFrame tid) =
        (s, [errorFrame tid "NOT_FOUND" "no running turn"])) ∧
    (s.running = true → s.trace_id = some t → tid ≠ t →
      sessStep d fresh s (.cancelFrame tid) =
        (s, [errorFrame tid "NOT_FOUND" "trace_id not running"])) ∧
    (s.running = true → s.trace_id = some t →
      runSession d fresh s [.cancelFrame t, .turnDone res] =
        (⟨false, false, none⟩, [doneFrameOf res])) := by
  refine ⟨?_, ?_, ?_, ?_⟩
  · intro hrun htr
    simp [sessStep, hrun, htr]
  · intro hrun
    simp [sessStep, hrun]
  · intro hrun htr hne
    have hne2 : ¬t = tid := fun h => hne h.symm
    simp [sessStep, hrun, htr, hne2]
  · intro hrun htr
    have h1 : sessStep d fresh s (.cancelFrame t) = ({ s with cancelSet := true }, []) := by
      simp [sessStep, hrun, htr]
    have h2 : sessStep d fresh { s with cancelSet := true } (.turnDone res) =
        (⟨false, false, none⟩, [doneFrameOf res]) := by
      simp [sessStep, hrun]
    simp only [runSession, h1, h2]
    rfl

/-- C7 witness: the three cancel outcomes at concrete sessions. -/

theorem session_cancel_requires_matching_trace_witness :
    sessStep none "f" ⟨true, false, some "t1"⟩ (.cancelFrame "t1") =
      (⟨true, true, some "t1"⟩, []) ∧
    sessStep none "f" ⟨false, false, none⟩ (.cancelFrame "t1") =
      (⟨false, false, none⟩, [errorFrame "t1" "NOT_FOUND" "no running turn"]) ∧
    sessStep none "f" ⟨true, false, some "t1"⟩ (.cancelFrame "t2") =
      (⟨true, false, some "t1"⟩, [errorFrame "t2" "NOT_FOUND" "trace_id not running"]) ∧
    runSession none "f" ⟨true, false, some "t1"⟩
      [.cancelFrame "t1", .turnDone demoResult] =
      (⟨false, false, none⟩, [doneFrameOf demoResult]) :=
  ⟨(session_cancel_requires_matching_trace none "f" ⟨true, false, some "t1"⟩ "t1" "t2" demoResult).1 rfl rfl,
    (session_cancel_requires_matching_trace none "f" ⟨false, false, none⟩ "t1" "t1" demoResult).2.1 rfl,
    (session_cancel_requires_matching_trace none "f" ⟨true, false, some "t1"⟩ "t1" "t2" demoResult).2.2.1 rfl rfl
      (by decide),
    (session_cancel_requires_matching_trace none "f" ⟨true, false, some "t1"⟩ "t1" "t2" demoResult).2.2.2 rfl rfl⟩

/-- C8: listing without a cursor is in non-decreasing `created_at` order;
a limited page is also ascending, contains only rows strictly before the
cursor, has length `min limit total`, consists of the most recent rows,
and re-listing with `before` set to the oldest timestamp of a previous
page shares no element with that page. -/

theorem list_messages_ordering_and_pagination (st : Store) (conv : String) (lim lim' : Option Nat) (bt : Option Nat)
    (n : Nat) (p0 : MessageRow) (rest : List MessageRow)
    (hP : list_messages st conv lim bt = p0 :: rest) :
    (list_messages st conv none none).Pairwise createdLE ∧
    (list_messages st conv lim bt).Pairwise createdLE ∧
    (∀ b, ∀ x ∈ list_messages st conv lim (some b), x.created_at_utc < b) ∧
    (list_messages st conv (some n) bt).length =
      min n (list_messages st conv none bt).length ∧
    (∀ y ∈ list_messages st conv none bt, y ∉ list_messages st conv (some n) bt →
      ∀ x ∈ list_messages st conv (some n) bt, y.created_at_utc ≤ x.created_at_utc) ∧
    (∀ x ∈ list_messages st conv lim' (some p0.created_at_utc), x ∉ p0 :: rest) := by
  refine ⟨list_messages_pairwise st conv none none,
    list_messages_pairwise st conv lim bt,
    fun b x hx => list_messages_mem_before st conv lim b x hx, ?_, ?_, ?_⟩
  · rw [list_messages_eq, list_messages_eq]
    simp only [List.length_drop]
    omega
  · intro y hy hynot x hx
    have hrepr : list_messages st conv none bt =
        (st.filter (rowFilter conv bt)).insertionSort createdLE := list_messages_eq ..
    have hrepr2 : list_messages st conv (some n) bt =
        ((st.filter (rowFilter conv bt)).insertionSort createdLE).drop
          (((st.filter (rowFilter conv bt)).insertionSort createdLE).length - n) :=
      list_messages_eq ..
    set S := (st.filter (rowFilter conv bt)).insertionSort createdLE with hS
    set k := S.length - n with hk
    have hsplit : S.take k ++ S.drop k = S := List.take_append_drop k S
    have hpw : (S.take k ++ S.drop k).Pairwise createdLE := by
      rw [hsplit]
      exact List.sorted_insertionSort createdLE _
    have hytake : y ∈ S.take k := by
      rw [hrepr] at hy
      rw [hrepr2] at hynot
      have : y ∈ S.take k ++ S.drop k := by rw [hsplit]; exact hy
      rcases List.mem_append.mp this with h | h
      · exact h
      · exact absurd h hynot
    have hxdrop : x ∈ S.drop k := by rw [hrepr2] at hx; exact hx
    exact (List.pairwise_append.mp hpw).2.2 y hytake x hxdrop
  · intro x hx hxmem
    have hlt : x.created_at_utc < p0.created_at_utc :=
      list_messages_mem_before st conv lim' p0.created_at_utc x hx
    have hge : p0.created_at_utc ≤ x.created_at_utc :=
      list_messages_head_min st conv lim bt p0 rest hP x hxmem
    omega

/-- C8 witness: the pagination theorem on the three-row store. -/

theorem list_messages_ordering_and_pagination_witness :
    (list_messages pageStore "c1" none none).Pairwise createdLE ∧
    (list_messages pageStore "c1" (some 2) none).Pairwise createdLE ∧
    (∀ b, ∀ x ∈ list_messages pageStore "c1" (some 2) (some b), x.created_at_utc < b) ∧
    (list_messages pageStore "c1" (some 2) none).length =
      min 2 (list_messages pageStore "c1" none none).length ∧
    (∀ y ∈ list_messages pageStore "c1" none none,
      y ∉ list_messages pageStore "c1" (some 2) none →
      ∀ x ∈ list_messages pageStore "c1" (some 2) none,
        y.created_at_utc ≤ x.created_at_utc) ∧
    (∀ x ∈ list_messages pageStore "c1" (some 2) (some pageRow2.created_at_utc),
      x ∉ pageRow2 :: [pageRow3]) :=
  list_messages_ordering_and_pagination pageStore "c1" (some 2) (some 2) none 2 pageRow2 [pageRow3] (by rfl)

/-- C9: the status callbacks of a turn are a prefix of
`queued, thinking, streaming` in that order, and after `streaming` every
further callback is a delta. -/

theorem run_turn_status_checkpoint_order (store : Store) (conversation_id content_text : String)
    (attachments : List String) (cancel : Nat → Bool)
    (llmFrags : List String) (llmErr : Option String)
    (trace_id user_message_id assistant_message_id : String)
    (client_request_id : Option String) (context_limit : Nat) (system_prompt : String)
    (now now2 : Nat) (out : TurnOutcome)
    (hrun : run_turn store conversation_id content_text attachments cancel llmFrags llmErr
      trace_id user_message_id assistant_message_id client_request_id context_limit
      system_prompt now now2 = .ok out) :
    out.callbacks = [CbEvent.status "queued"] ∨
    ∃ ds : List String, out.callbacks =
      CbEvent.status "queued" :: CbEvent.status "thinking" :: CbEvent.status "streaming" ::
        ds.map CbEvent.delta := by
  unfold run_turn at hrun
  cases hcreate : create_message store user_message_id conversation_id "user" content_text
      client_request_id attachments now with
  | error e => rw [hcreate] at hrun; cases hrun
  | ok p =>
    obtain ⟨user_row, store1⟩ := p
    rw [hcreate] at hrun
    dsimp only at hrun
    by_cases hc0 : cancel 0 = true
    · rw [if_pos hc0] at hrun
      injection hrun with h
      subst h
      exact Or.inl rfl
    · rw [if_neg hc0] at hrun
      cases hb : (consumeStream cancel 1 llmFrags).2.2 with
      | false =>
        cases he : llmErr with
        | some emsg =>
          rw [hb, he] at hrun
          dsimp only at hrun
          injection hrun with h
          subst h
          exact Or.inr ⟨(consumeStream cancel 1 llmFrags).2.1, rfl⟩
        | none =>
          rw [hb, he] at hrun
          dsimp only at hrun
          have hcb := afterStream_ok_callbacks hrun
          exact Or.inr ⟨(consumeStream cancel 1 llmFrags).2.1, by simp [hcb]⟩
      | true =>
        rw [hb] at hrun
        cases he : llmErr with
        | some emsg =>
          rw [he] at hrun
          dsimp only at hrun
          have hcb := afterStream_ok_callbacks hrun
          exact Or.inr ⟨(consumeStream cancel 1 llmFrags).2.1, by simp [hcb]⟩
        | none =>
          rw [he] at hrun
          dsimp only at hrun
          have hcb := afterStream_ok_callbacks hrun
          exact Or.inr ⟨(consumeStream cancel 1 llmFrags).2.1, by simp [hcb]⟩

/-- C9 witness: a completed concrete turn. -/

theorem run_turn_status_checkpoint_order_witness :
    ∃ out, run_turn [] "c1" "hello" [] (fun _ => false) ["x"] none "t" "u1" "a1" none
        30 "sys" 0 1 = .ok out ∧
      (out.callbacks = [CbEvent.status "queued"] ∨
        ∃ ds : List String, out.callbacks =
          CbEvent.status "queued" :: CbEvent.status "thinking" ::
            CbEvent.status "streaming" :: ds.map CbEvent.delta) := by
  have hok : (run_turn [] "c1" "hello" [] (fun _ => false) ["x"] none "t" "u1" "a1"
      none 30 "sys" 0 1).isOk = true := by rfl
  cases h : run_turn [] "c1" "hello" [] (fun _ => false) ["x"] none "t" "u1" "a1" none
      30 "sys" 0 1 with
  | error e => rw [h] at hok; cases hok
  | ok out =>
    exact ⟨out, rfl, run_turn_status_checkpoint_order [] "c1" "hello" [] (fun _ => false) ["x"] none "t" "u1" "a1"
      none 30 "sys" 0 1 out h⟩

/-- C10: with an empty-string `client_request_id` the idempotency lookup
is skipped (truthiness), but the partial unique index still covers the
empty string, so a second insert for the same conversation raises a
store-level uniqueness error instead of returning the original row. -/

theorem create_message_empty_key_unique_violation (st : Store)
    (conv mid1 mid2 role1 role2 c1 c2 : String) (a1 a2 : List String) (t1 t2 : Nat)
    (hmid1 : ∀ r ∈ st, r.message_id ≠ mid1)
    (hpair : ∀ r ∈ st, ¬(r.conversation_id = conv ∧ r.client_request_id = some "")) :
    ∃ row1,
      create_message st mid1 conv role1 c1 (some "") a1 t1 = .ok (row1, st ++ [row1]) ∧
      create_message (st ++ [row1]) mid2 conv role2 c2 (some "") a2 t2 =
        .error .uniqueViolation := by
  refine ⟨⟨mid1, conv, role1, c1, t1, some "", a1⟩,
    create_message_inserts_some st mid1 conv role1 c1 "" a1 t1 hmid1 hpair, ?_⟩
  have hmem : (⟨mid1, conv, role1, c1, t1, some "", a1⟩ : MessageRow) ∈
      st ++ [⟨mid1, conv, role1, c1, t1, some "", a1⟩] := by simp
  have hany2 : ((st ++ [(⟨mid1, conv, role1, c1, t1, some "", a1⟩ : MessageRow)]).any fun r =>
      r.conversation_id == conv && r.client_request_id == some "") = true := by
    apply List.any_eq_true.mpr
    refine ⟨⟨mid1, conv, role1, c1, t1, some "", a1⟩, hmem, ?_⟩
    simp
  unfold create_message
  simp only [idempotencyLookup, pyTruthy, bne_self_eq_false, Bool.false_eq_true, if_false,
    Option.isSome_some, Bool.true_and]
  cases hpk : ((st ++ [(⟨mid1, conv, role1, c1, t1, some "", a1⟩ : MessageRow)]).any
      fun r => r.message_id == mid2) with
  | true => simp [hpk]
  | false => simp [hpk, hany2]

/-- C10 witness: the empty-string key behaviour on the empty store. -/

theorem create_message_empty_key_unique_violation_witness :
    ∃ row1,
      create_message [] "m1" "c" "user" "A" (some "") [] 1 = .ok (row1, [] ++ [row1]) ∧
      create_message ([] ++ [row1]) "m2" "c" "user" "B" (some "") [] 2 =
        .error .uniqueViolation :=
  create_message_empty_key_unique_violation [] "c" "m1" "m2" "user" "user" "A" "B" [] [] 1 2 (by simp) (by simp)

end AlphaHub
